import Mathlib

/-!
Verification of the HLS relay server (`src/app.py`) against its
natural-language specification.

The program is shallowly embedded: the pure playlist-rewriting core of
`update_worker`, the token-store functions, the two Flask routes of the
playback gateway, and the supervisor (`start_updater` / `stop_updater`)
become Lean functions; the mutation of the global dictionaries
(`latest_playlists`, `latest_segments`, `updater_threads`) becomes
explicit state passing, and the interleaving of the worker's dictionary
writes with gateway reads becomes a small trace semantics.  Instants of
time (`time.time()` and the `expires` REAL column) are modelled as
rationals.
-/

namespace HLSRelay

/-! ## Association lists

The Python dictionaries keyed by `(name, version)` tuples, and the
`tokens` table keyed by its `token` primary key, are modelled as
association lists.  `putA` models dictionary assignment (replace the
binding or append a fresh one), `eraseA` models `pop` / SQL `DELETE`
of a key (keys are unique in a dictionary and in a primary-key column,
so removing every binding agrees with removing the one binding). -/

def lookupA {α β : Type} [DecidableEq α] : List (α × β) → α → Option β
  | [], _ => none
  | (a, b) :: rest, k => if a = k then some b else lookupA rest k

def putA {α β : Type} [DecidableEq α] : List (α × β) → α → β → List (α × β)
  | [], k, v => [(k, v)]
  | (a, b) :: rest, k, v => if a = k then (k, v) :: rest else (a, b) :: putA rest k v

def eraseA {α β : Type} [DecidableEq α] : List (α × β) → α → List (α × β)
  | [], _ => []
  | (a, b) :: rest, k => if a = k then eraseA rest k else (a, b) :: eraseA rest k

/-! ## String primitives

Models of the Python string operations the program uses.  They are
written over `String.data` so that every definition evaluates inside
the kernel. -/

/-- Models Python `str.strip()` with no argument: removes leading and
trailing whitespace.  (Python also strips a few exotic whitespace
characters; the playlists this program handles only contain spaces,
tabs and CR/LF, which `Char.isWhitespace` covers.) -/
def strip (s : String) : String :=
  (((s.data.dropWhile Char.isWhitespace).reverse.dropWhile Char.isWhitespace).reverse).asString

def splitlinesAux : List Char → List Char → List String
  | [], acc => [acc.reverse.asString]
  | c :: cs, acc =>
      if c = '\n' then acc.reverse.asString :: splitlinesAux cs []
      else splitlinesAux cs (c :: acc)

/-- Models Python `str.splitlines()` for LF / CRLF line endings: splits
at every `'\n'` (a preceding `'\r'` is left on the piece and removed by
the subsequent `strip`).  Unlike Python it yields a final empty piece
after a trailing newline; the worker discards that piece as blank, so
the difference is unobservable in `update_worker`. -/
def splitlines (s : String) : List String := splitlinesAux s.data []

def splitOnCharAux (sep : Char) : List Char → List Char → List (List Char)
  | [], acc => [acc.reverse]
  | c :: cs, acc =>
      if c = sep then acc.reverse :: splitOnCharAux sep cs []
      else splitOnCharAux sep cs (c :: acc)

/-- Splits a string at every occurrence of `sep` (models Python
`str.split(sep)`). -/
def splitOnChar (sep : Char) (s : String) : List String :=
  (splitOnCharAux sep s.data []).map List.asString

/-- Models Python `str.endswith(t)`. -/
def endsWithS (s t : String) : Bool := t.data.isSuffixOf s.data

/-- Models Python `str.startswith(t)`. -/
def startsWithS (s t : String) : Bool := t.data.isPrefixOf s.data

def hasSubList (pat : List Char) : List Char → Bool
  | [] => pat.isEmpty
  | c :: rest => pat.isPrefixOf (c :: rest) || hasSubList pat rest

/-- Models Python `pat in s` (substring test). -/
def containsSub (s pat : String) : Bool := hasSubList pat.data s.data

/-- Models Python `sep.join(pieces)`. -/
def joinWith (sep : String) : List String → String
  | [] => ""
  | [p] => p
  | p :: q :: rest => p ++ sep ++ joinWith sep (q :: rest)

/-! ## URL resolution -/

/-- The `scheme://host` part of an absolute URL, used for root-relative
references. -/
def schemeAndHost (base : String) : String :=
  match splitOnChar '/' base with
  | scheme :: "" :: host :: _ => scheme ++ "//" ++ host
  | _ => ""

/-- Models `urllib.parse.urljoin` (Python standard library, external to
this repository) restricted to the reference shapes an HLS playlist
contains: a reference that already carries a scheme (contains `"://"`)
is returned unchanged; a root-relative reference (starting with `"/"`)
replaces the base URL's path; any other reference is resolved against
the base directory, which in this program always ends in `"/"`.
Dot-segment normalisation is not modelled. -/
def urljoin (base url : String) : String :=
  if containsSub url "://" then url
  else if startsWithS url "/" then schemeAndHost base ++ url
  else base ++ url

/-- Line 124 of `app.py`: `base_url = source_url.rsplit("/",1)[0] + "/"`
(the origin URL with its last path component stripped, plus a slash; a
URL without any `"/"` is returned whole, as `rsplit` then returns the
only piece). -/
def baseUrl (source_url : String) : String :=
  let parts := splitOnChar '/' source_url
  if parts.length ≤ 1 then source_url ++ "/"
  else joinWith "/" parts.dropLast ++ "/"

/-! ## The playlist rewrite (`update_worker`, lines 129-146) -/

/-- Line 137 of `app.py`: a (stripped) line is a segment line when it
ends with `.ts`, ends with `.aac`, or contains the substring `.ts?`. -/
def isSegmentLine (line : String) : Bool :=
  endsWithS line ".ts" || endsWithS line ".aac" || containsSub line ".ts?"

/-- Line 141 of `app.py`: the local reference emitted in place of a
segment line. -/
def segRef (name version : String) (idx : Nat) : String :=
  "/seg/" ++ name ++ "/" ++ version ++ "/" ++ toString idx

/-- The body of the `for line in lines` loop of `update_worker`
(lines 133-143).  The accumulator is the pair
`(new_segs, new_playlist_lines)`; `acc.1.length` is `len(new_segs)`,
the `idx` of line 139. -/
def update_line_step (name version base : String)
    (acc : List String × List String) (raw : String) : List String × List String :=
  let line := strip raw
  if line = "" then acc
  else if isSegmentLine line then
    (acc.1 ++ [urljoin base line], acc.2 ++ [segRef name version acc.1.length])
  else
    (acc.1, acc.2 ++ [line])

/-- The whole rewrite loop: `(new_segs, new_playlist_lines)` produced
from the fetched lines. -/
def update_lines (name version base : String) (ls : List String) :
    List String × List String :=
  ls.foldl (update_line_step name version base) ([], [])

/-- The pair installed by one successful worker cycle: the rewritten
playlist text (line 146, `"\n".join(new_playlist_lines)`) and the
segment table `new_segs` (line 145). -/
structure PlaylistSnapshot where
  text : String
  table : List String
deriving DecidableEq, Repr

/-- Lines 124 and 129-146 of `app.py` as one pure function of the
channel identity, the origin URL and the fetched body. -/
def rewritePlaylist (name version source_url body : String) : PlaylistSnapshot :=
  let base := baseUrl source_url
  let res := update_lines name version base (splitlines body)
  ⟨joinWith "\n" res.2, res.1⟩

/-! ## Token store (`validate_token`, `cleanup_expired_tokens`) -/

/-- One row of the `tokens` table (the `play_url` column plays no part
in the claims and is omitted).  `expires` is the REAL column, modelled
as a rational. -/
structure TokenRec where
  channel_name : String
  channel_version : String
  expires : ℚ
deriving DecidableEq, Repr

/-- Lines 97-112 of `app.py`: look the token up; absent means invalid
with the store unchanged; a past expiry (`time.time() > expires`) means
invalid and the row is deleted; otherwise the bound channel identity is
returned.  The first component is the return value, the second the
token store after the call. -/
def validate_token (store : List (String × TokenRec)) (now : ℚ) (token : String) :
    Option (String × String) × List (String × TokenRec) :=
  match lookupA store token with
  | none => (none, store)
  | some r =>
      if now > r.expires then (none, eraseA store token)
      else (some (r.channel_name, r.channel_version), store)

/-- Lines 114-119 of `app.py`: `DELETE FROM tokens WHERE expires < now`. -/
def cleanup_expired_tokens (now : ℚ) : List (String × TokenRec) → List (String × TokenRec)
  | [] => []
  | (t, r) :: rest =>
      if r.expires < now then cleanup_expired_tokens now rest
      else (t, r) :: cleanup_expired_tokens now rest

/-! ## Playback gateway (`play_index`, `segment`) -/

inductive PlayResponse where
  | missingToken
  | invalidOrExpiredToken
  | tokenMismatch
  | playlistNotReady
  | ok (body : String) (mimetype : String)
deriving DecidableEq, Repr

/-- Lines 255-269 of `app.py`.  A missing `token` query parameter and
an empty one coincide (`request.args.get("token", "")` followed by
`if not token`).  `latest_playlists.get((name, version))` with a `None`
or empty result aborts 503 (`if not playlist`).  Returns the response
and the token store after the call (`validate_token` may delete an
expired row). -/
def play_index (store : List (String × TokenRec))
    (playlists : List ((String × String) × String)) (now : ℚ)
    (name version token : String) :
    PlayResponse × List (String × TokenRec) :=
  if token = "" then (.missingToken, store)
  else
    match validate_token store now token with
    | (none, store2) => (.invalidOrExpiredToken, store2)
    | (some (valid_name, valid_version), store2) =>
        if valid_name ≠ name ∨ valid_version ≠ version then (.tokenMismatch, store2)
        else
          match lookupA playlists (name, version) with
          | none => (.playlistNotReady, store2)
          | some playlist =>
              if playlist = "" then (.playlistNotReady, store2)
              else (.ok playlist "application/vnd.apple.mpegurl", store2)

/-- The observable decision of the segment route: either 404 without
contacting the origin, or a streaming GET of the resolved origin URL. -/
inductive SegResponse where
  | segmentNotFound
  | upstreamGet (url : String)
deriving DecidableEq, Repr

/-- Lines 271-276 of `app.py`: `latest_segments.get((name, version), [])`,
the bounds check, and the lookup `segs[seg_id]`.  The route pattern
`<int:seg_id>` only matches non-negative integers, so `seg_id : Nat`
and the `seg_id < 0` branch of line 274 is vacuous. -/
def segment (segments : List ((String × String) × List String))
    (name version : String) (seg_id : Nat) : SegResponse :=
  let segs := (lookupA segments (name, version)).getD []
  if h : seg_id < segs.length then .upstreamGet (segs.get ⟨seg_id, h⟩)
  else .segmentNotFound

/-! ## One worker cycle over the shared state -/

/-- The shared mutable state one worker cycle touches: the two global
dictionaries and the token table. -/
structure RelayState where
  latest_playlists : List ((String × String) × String)
  latest_segments : List ((String × String) × List String)
  tokens : List (String × TokenRec)
deriving DecidableEq, Repr

/-- One iteration of the `while` loop of `update_worker`
(lines 125-151), with the fetch outcome passed in: `.ok body` is a 2xx
response with that text, `.error e` is a network failure or non-2xx
status (`raise_for_status`), which skips to the `except` arm leaving
both dictionaries untouched.  Either way the cycle ends with
`cleanup_expired_tokens()`. -/
def update_worker_cycle (name version source_url : String)
    (fetched : Except String String) (now : ℚ) (s : RelayState) : RelayState :=
  let s2 :=
    match fetched with
    | .error _ => s
    | .ok body =>
        let snap := rewritePlaylist name version source_url body
        { s with
          latest_segments := putA s.latest_segments (name, version) snap.table
          latest_playlists := putA s.latest_playlists (name, version) snap.text }
  { s2 with tokens := cleanup_expired_tokens now s2.tokens }

/-- The worker loop run over a finite schedule of fetch outcomes. -/
def update_worker_run (name version source_url : String)
    (cycles : List (Except String String × ℚ)) (s : RelayState) : RelayState :=
  cycles.foldl (fun st c => update_worker_cycle name version source_url c.1 c.2 st) s

/-! ## Spec-side characterisation of the rewrite

`tableSpec` and `outputSpec` state the spec's rewrite-correctness
property (with the whitespace-stripping the code performs made
explicit): segment lines in order, each resolved against the base
directory; pass-through lines verbatim (after stripping) in order, each
segment line replaced by `segRef` at its 0-based position counted among
segment lines only. -/

def tableSpec (base : String) : List String → List String
  | [] => []
  | raw :: rest =>
      if strip raw = "" then tableSpec base rest
      else if isSegmentLine (strip raw) then
        urljoin base (strip raw) :: tableSpec base rest
      else tableSpec base rest

def outputSpec (name version : String) : Nat → List String → List String
  | _, [] => []
  | k, raw :: rest =>
      if strip raw = "" then outputSpec name version k rest
      else if isSegmentLine (strip raw) then
        segRef name version k :: outputSpec name version (k + 1) rest
      else strip raw :: outputSpec name version k rest

/-! ## Write-interleaving model of the cache installation

Lines 145 and 146 of `app.py` are two separate dictionary assignments:
`latest_segments[(name, version)] = new_segs` and then
`latest_playlists[(name, version)] = "\n".join(new_playlist_lines)`.
Each assignment is a single atomic write (one bytecode store under the
interpreter lock), but the pair is not: a gateway read may fall between
them.  The model below records, for one channel, the sequence of atomic
writes a run of worker cycles performs, and what a reader sees after
any prefix of them. -/

/-- One channel's slots in the two global dictionaries as a reader sees
them (`none` = key absent). -/
structure ChanCache where
  playlist : Option String
  segments : Option (List String)
deriving DecidableEq, Repr

/-- One atomic dictionary write of `update_worker`. -/
inductive CacheWrite where
  | wsegs (table : List String)
  | wtext (text : String)
deriving DecidableEq, Repr

def applyWrite (c : ChanCache) : CacheWrite → ChanCache
  | .wsegs t => { c with segments := some t }
  | .wtext x => { c with playlist := some x }

/-- The two writes of one successful cycle, in the order the code
performs them: segments (line 145) before playlist text (line 146). -/
def cycleWrites (name version source_url body : String) : List CacheWrite :=
  let snap := rewritePlaylist name version source_url body
  [.wsegs snap.table, .wtext snap.text]

/-- The whole write sequence of successive successful cycles fetching
`bodies` in order. -/
def writesOf (name version source_url : String) : List String → List CacheWrite
  | [] => []
  | b :: rest =>
      cycleWrites name version source_url b ++ writesOf name version source_url rest

/-- What a reader observes after the first `k` atomic writes. -/
def observeAfter (init : ChanCache) (ws : List CacheWrite) (k : Nat) : ChanCache :=
  (ws.take k).foldl applyWrite init

/-- The playlist text visible once `c` cycles have completed their text
write (the initial value while `c = 0`). -/
def textAfterCycles (name version source_url : String) :
    Option String → List String → Nat → Option String
  | cur, _, 0 => cur
  | cur, [], _ + 1 => cur
  | _, b :: rest, c + 1 =>
      textAfterCycles name version source_url
        (some (rewritePlaylist name version source_url b).text) rest c

/-- The segment table visible once `c` cycles have completed their
table write. -/
def segsAfterCycles (name version source_url : String) :
    Option (List String) → List String → Nat → Option (List String)
  | cur, _, 0 => cur
  | cur, [], _ + 1 => cur
  | _, b :: rest, c + 1 =>
      segsAfterCycles name version source_url
        (some (rewritePlaylist name version source_url b).table) rest c

/-- Claim C2 as stated, at one channel and one schedule of successful
cycles: every observable state is the initial one or the complete
snapshot of a single cycle. -/
def ClaimC2Holds (name version source_url : String) (init : ChanCache)
    (bodies : List String) : Prop :=
  ∀ k : Nat,
    observeAfter init (writesOf name version source_url bodies) k = init ∨
    ∃ b ∈ bodies,
      observeAfter init (writesOf name version source_url bodies) k =
        ⟨some (rewritePlaylist name version source_url b).text,
         some (rewritePlaylist name version source_url b).table⟩

/-! ## Worker supervisor (`start_updater`, `stop_updater`)

`updater_threads` maps a `(name, version)` key to its worker handle.
A handle is identified by a thread identifier drawn from the counter
`next_thread`; `cancelled` is the set of identifiers whose
`stop_event.set()` has been called.  Operations are modelled in the
sequential order they are executed. -/

structure SupervisorState where
  updater_threads : List ((String × String) × Nat)
  next_thread : Nat
  cancelled : List Nat
deriving DecidableEq, Repr

/-- Lines 153-160 of `app.py`: no-op when the key is present, otherwise
record a fresh handle (dictionary assignment) and start the thread. -/
def start_updater (s : SupervisorState) (name version : String) : SupervisorState :=
  match lookupA s.updater_threads (name, version) with
  | some _ => s
  | none =>
      { updater_threads := putA s.updater_threads (name, version) s.next_thread
        next_thread := s.next_thread + 1
        cancelled := s.cancelled }

/-- Lines 162-167 of `app.py`: `updater_threads.pop(key, None)`; when a
handle was present, signal its `stop_event`. -/
def stop_updater (s : SupervisorState) (name version : String) : SupervisorState :=
  match lookupA s.updater_threads (name, version) with
  | none => s
  | some tid =>
      { updater_threads := eraseA s.updater_threads (name, version)
        next_thread := s.next_thread
        cancelled := tid :: s.cancelled }

inductive SupOp where
  | startOp (name version : String)
  | stopOp (name version : String)

def applySupOp (s : SupervisorState) : SupOp → SupervisorState
  | .startOp n v => start_updater s n v
  | .stopOp n v => stop_updater s n v

def runSupFrom (s : SupervisorState) (ops : List SupOp) : SupervisorState :=
  ops.foldl applySupOp s

/-- The supervisor state at process start: no handles, no threads ever
launched. -/
def initSup : SupervisorState := ⟨[], 0, []⟩

/-- Internal invariant of the supervisor: handle keys are unique, and
every thread identifier ever recorded or cancelled came from the
counter. -/
def SupInv (s : SupervisorState) : Prop :=
  (s.updater_threads.map Prod.fst).Nodup ∧
  (∀ p ∈ s.updater_threads, p.2 < s.next_thread) ∧
  (∀ c ∈ s.cancelled, c < s.next_thread)

/-! ## Association-list lemmas -/

theorem lookupA_putA_self {α β : Type} [DecidableEq α] (l : List (α × β)) (k : α) (v : β) :
    lookupA (putA l k v) k = some v := by
  induction l with
  | nil => simp [putA, lookupA]
  | cons p rest ih =>
      obtain ⟨a, b⟩ := p
      by_cases h : a = k
      · simp [putA, h, lookupA]
      · simp [putA, h, lookupA, ih]

theorem lookupA_eraseA_self {α β : Type} [DecidableEq α] (l : List (α × β)) (k : α) :
    lookupA (eraseA l k) k = none := by
  induction l with
  | nil => rfl
  | cons p rest ih =>
      obtain ⟨a, b⟩ := p
      by_cases h : a = k
      · simp [eraseA, h, ih]
      · simp [eraseA, h, lookupA, ih]

theorem lookupA_mem {α β : Type} [DecidableEq α] {l : List (α × β)} {k : α} {b : β}
    (h : lookupA l k = some b) : (k, b) ∈ l := by
  induction l with
  | nil => simp [lookupA] at h
  | cons p rest ih =>
      obtain ⟨a, c⟩ := p
      by_cases hak : a = k
      · subst hak
        simp [lookupA] at h
        simp [h]
      · simp [lookupA, hak] at h
        simp [ih h]

theorem mem_eraseA {α β : Type} [DecidableEq α] {l : List (α × β)} {k : α} {q : α × β}
    (hq : q ∈ eraseA l k) : q ∈ l := by
  induction l with
  | nil => simp [eraseA] at hq
  | cons p rest ih =>
      obtain ⟨a, b⟩ := p
      by_cases h : a = k
      · simp only [eraseA, if_pos h] at hq
        simp [ih hq]
      · simp only [eraseA, if_neg h, List.mem_cons] at hq
        rcases hq with h1 | h1
        · simp [h1]
        · simp [ih h1]

theorem not_mem_keys_of_lookupA_none {α β : Type} [DecidableEq α] {l : List (α × β)} {k : α}
    (h : lookupA l k = none) : k ∉ l.map Prod.fst := by
  induction l with
  | nil => simp
  | cons p rest ih =>
      obtain ⟨a, b⟩ := p
      by_cases hak : a = k
      · simp [lookupA, hak] at h
      · simp only [lookupA, if_neg hak] at h
        simp only [List.map_cons, List.mem_cons]
        intro hc
        rcases hc with h1 | h1
        · exact hak h1.symm
        · exact ih h h1

theorem putA_eq_append {α β : Type} [DecidableEq α] {l : List (α × β)} {k : α} (v : β)
    (h : lookupA l k = none) : putA l k v = l ++ [(k, v)] := by
  induction l with
  | nil => rfl
  | cons p rest ih =>
      obtain ⟨a, b⟩ := p
      by_cases hak : a = k
      · simp [lookupA, hak] at h
      · simp only [lookupA, if_neg hak] at h
        simp [putA, hak, ih h]

theorem keys_eraseA_mem {α β : Type} [DecidableEq α] {l : List (α × β)} {k x : α}
    (hx : x ∈ (eraseA l k).map Prod.fst) : x ∈ l.map Prod.fst := by
  simp only [List.mem_map] at hx ⊢
  obtain ⟨q, hq, hqx⟩ := hx
  exact ⟨q, mem_eraseA hq, hqx⟩

theorem nodup_keys_eraseA {α β : Type} [DecidableEq α] {l : List (α × β)} (k : α)
    (h : (l.map Prod.fst).Nodup) : ((eraseA l k).map Prod.fst).Nodup := by
  induction l with
  | nil => simp [eraseA]
  | cons p rest ih =>
      obtain ⟨a, b⟩ := p
      simp only [List.map_cons, List.nodup_cons] at h
      by_cases hak : a = k
      · simp only [eraseA, if_pos hak]
        exact ih h.2
      · simp only [eraseA, if_neg hak, List.map_cons, List.nodup_cons]
        exact ⟨fun hc => h.1 (keys_eraseA_mem hc), ih h.2⟩

/-! ## Rewrite-loop characterisation -/

theorem update_lines_foldl (name version base : String) (ls : List String) :
    ∀ segs outs : List String,
      ls.foldl (update_line_step name version base) (segs, outs) =
        (segs ++ tableSpec base ls, outs ++ outputSpec name version segs.length ls) := by
  induction ls with
  | nil => intro segs outs; simp [tableSpec, outputSpec]
  | cons raw rest ih =>
      intro segs outs
      by_cases hb : strip raw = ""
      · simp only [List.foldl_cons, update_line_step, hb, if_pos rfl, tableSpec, outputSpec]
        simp [hb, ih]
      · by_cases hs : isSegmentLine (strip raw) = true
        · simp only [List.foldl_cons, update_line_step, if_neg hb, hs, if_pos rfl]
          rw [ih]
          simp [tableSpec, outputSpec, hb, hs, List.length_append]
        · simp only [List.foldl_cons, update_line_step, if_neg hb, hs]
          rw [ih]
          simp [tableSpec, outputSpec, hb, hs]

theorem tableSpec_eq_filter (base : String) (ls : List String) :
    tableSpec base ls =
      ((((ls.map strip).filter fun l => l ≠ "").filter fun l => isSegmentLine l).map
        (urljoin base)) := by
  induction ls with
  | nil => rfl
  | cons raw rest ih =>
      by_cases hb : strip raw = ""
      · simp [tableSpec, hb, ih]
      · by_cases hs : isSegmentLine (strip raw) = true
        · simp [tableSpec, hb, hs, ih]
        · simp [tableSpec, hb, hs, ih]

/-! ## Claim C1 -/

/-- Claim C1 as frozen is false on the code: the input line
`"  #EXTINF:10,"` is non-blank and is not a segment line under the
claim's own classification, so the claim requires it to appear in the
output verbatim; `update_worker` strips every line before emitting it,
so the output contains `"#EXTINF:10,"` instead and the verbatim line
appears nowhere in the output. -/
theorem C1_claim_counterexample :
    ("  #EXTINF:10," : String) ≠ "" ∧
    isSegmentLine "  #EXTINF:10," = false ∧
    (rewritePlaylist "demo" "v1" "http://o.example/live/stream.m3u8"
        "#EXTM3U\n  #EXTINF:10,\nseg0.ts").text =
      "#EXTM3U\n#EXTINF:10,\n/seg/demo/v1/0" ∧
    "  #EXTINF:10," ∉
      splitlines (rewritePlaylist "demo" "v1" "http://o.example/live/stream.m3u8"
        "#EXTM3U\n  #EXTINF:10,\nseg0.ts").text := by
  decide

/-- Claim C1 (amended): each fetched line is first stripped of leading
and trailing whitespace and dropped if blank; each stripped
pass-through line is emitted (stripped, not verbatim) in its original
relative order, and each stripped segment line (ending in `.ts`, ending
in `.aac`, or containing `.ts?`) is replaced by `/seg/<name>/<version>/<i>`
with `i` its 0-based position among segment lines only; the segment
table lists, in the same order, exactly the segment lines resolved
against the origin URL's directory, so entry `i` corresponds to segment
line `i`; and the spec's `(demo, v1)` scenario rewrites as stated. -/
theorem C1_rewrite_stripped (name version source_url body : String) :
    (rewritePlaylist name version source_url body).table =
      tableSpec (baseUrl source_url) (splitlines body) ∧
    (rewritePlaylist name version source_url body).text =
      joinWith "\n" (outputSpec name version 0 (splitlines body)) ∧
    tableSpec (baseUrl source_url) (splitlines body) =
      (((((splitlines body).map strip).filter fun l => l ≠ "").filter fun l =>
          isSegmentLine l).map (urljoin (baseUrl source_url))) ∧
    rewritePlaylist "demo" "v1" "http://o.example/live/stream.m3u8"
        "#EXTM3U\n#EXTINF:10,\nseg0.ts\n#EXTINF:10,\nseg1.ts" =
      ⟨"#EXTM3U\n#EXTINF:10,\n/seg/demo/v1/0\n#EXTINF:10,\n/seg/demo/v1/1",
        ["http://o.example/live/seg0.ts", "http://o.example/live/seg1.ts"]⟩ := by
  have hfold := update_lines_foldl name version (baseUrl source_url) (splitlines body) [] []
  refine ⟨?_, ?_, tableSpec_eq_filter _ _, by decide⟩
  · simp [rewritePlaylist, update_lines, hfold]
  · simp [rewritePlaylist, update_lines, hfold]

/-! ## Claim C3 -/

/-- Claim C3 as frozen is false on the code at the expiry boundary: for
a record whose stored expiry equals the current instant, `now < expiry`
fails, so the claim requires `validate` to return invalid; the code
only treats the token as expired when `time.time() > expires`, so at
`now = expires` it returns the bound identity. -/
theorem C3_claim_counterexample :
    lookupA [("tok", TokenRec.mk "demo" "v1" 100)] "tok" =
      some (TokenRec.mk "demo" "v1" 100) ∧
    ¬ ((100 : ℚ) < (TokenRec.mk "demo" "v1" 100).expires) ∧
    (validate_token [("tok", TokenRec.mk "demo" "v1" 100)] 100 "tok").1 =
      some ("demo", "v1") := by
  refine ⟨by decide, by norm_num, by decide⟩

/-- Claim C3 (amended): `validate_token` returns the bound identity iff
a record exists and `now ≤ expiry` (the code treats the boundary
instant `now = expiry` as still valid); when the record exists and
`now > expiry` it returns invalid, deletes the record — the record is
absent from the store afterward; when no record exists it returns
invalid and the store is unchanged. -/
theorem C3_validate_token_boundary (store : List (String × TokenRec)) (now : ℚ)
    (token : String) :
    (lookupA store token = none → validate_token store now token = (none, store)) ∧
    (∀ r : TokenRec, lookupA store token = some r → r.expires < now →
        validate_token store now token = (none, eraseA store token) ∧
        lookupA (validate_token store now token).2 token = none) ∧
    (∀ r : TokenRec, lookupA store token = some r → now ≤ r.expires →
        validate_token store now token =
          (some (r.channel_name, r.channel_version), store)) := by
  refine ⟨?_, ?_, ?_⟩
  · intro h
    simp [validate_token, h]
  · intro r h hlt
    have hgt : now > r.expires := hlt
    constructor
    · simp [validate_token, h, hgt]
    · simp [validate_token, h, hgt, lookupA_eraseA_self]
  · intro r h hle
    have hngt : ¬ now > r.expires := not_lt.mpr hle
    simp [validate_token, h, hngt]

/-- Witness for C3: a concrete expired record (`expires = 100`,
`now = 101`) is deleted and reported invalid. -/
theorem C3_validate_token_boundary_witness :
    validate_token [("tok", TokenRec.mk "demo" "v1" 100)] 101 "tok" =
      (none, eraseA [("tok", TokenRec.mk "demo" "v1" 100)] "tok") ∧
    lookupA (validate_token [("tok", TokenRec.mk "demo" "v1" 100)] 101 "tok").2 "tok" =
      none :=
  (C3_validate_token_boundary [("tok", TokenRec.mk "demo" "v1" 100)] 101 "tok").2.1
    (TokenRec.mk "demo" "v1" 100) (by decide) (by norm_num)

/-! ## Claim C4 -/

/-- Claim C4 (confirmed): a playlist request with a token that
validates to some bound identity different from the requested
`(name, version)` is rejected with `TokenMismatch` and never returns
playlist content. -/
theorem C4_token_mismatch (store : List (String × TokenRec))
    (playlists : List ((String × String) × String)) (now : ℚ)
    (name version token vn vv : String) (htok : token ≠ "")
    (hval : (validate_token store now token).1 = some (vn, vv))
    (hne : (vn, vv) ≠ (name, version)) :
    (play_index store playlists now name version token).1 = .tokenMismatch ∧
    ∀ body mt, (play_index store playlists now name version token).1 ≠ .ok body mt := by
  rcases heq : validate_token store now token with ⟨a, b⟩
  rw [heq] at hval
  simp only at hval
  subst hval
  have hor : vn ≠ name ∨ vv ≠ version := by
    by_contra hc
    push_neg at hc
    exact hne (by simp [hc.1, hc.2])
  constructor
  · simp [play_index, htok, heq, hor]
  · intro body mt
    simp [play_index, htok, heq, hor]

/-- Witness for C4: a token bound to `("A", "v1")` presented against
path `("A", "v2")` yields `TokenMismatch`. -/
theorem C4_token_mismatch_witness :
    (play_index [("tok", TokenRec.mk "A" "v1" 100)] [(("A", "v2"), "#EXTM3U")] 0
        "A" "v2" "tok").1 = PlayResponse.tokenMismatch :=
  (C4_token_mismatch [("tok", TokenRec.mk "A" "v1" 100)] [(("A", "v2"), "#EXTM3U")] 0
      "A" "v2" "tok" "A" "v1" (by decide) (by decide) (by decide)).1

/-! ## Claim C5 -/

/-- Claim C5 (confirmed): the gateway decides a playlist request in the
order missing token, invalid-or-expired token, token mismatch, playlist
not ready (absent snapshot or empty text), then 200 with the cached
rewritten playlist and the HLS media type. -/
theorem C5_gateway_order (store : List (String × TokenRec))
    (playlists : List ((String × String) × String)) (now : ℚ)
    (name version token : String) :
    (token = "" →
        (play_index store playlists now name version token).1 = .missingToken) ∧
    (token ≠ "" → (validate_token store now token).1 = none →
        (play_index store playlists now name version token).1 = .invalidOrExpiredToken) ∧
    (∀ vn vv, token ≠ "" → (validate_token store now token).1 = some (vn, vv) →
        (vn, vv) ≠ (name, version) →
        (play_index store playlists now name version token).1 = .tokenMismatch) ∧
    (token ≠ "" → (validate_token store now token).1 = some (name, version) →
        (lookupA playlists (name, version) = none ∨
          lookupA playlists (name, version) = some "") →
        (play_index store playlists now name version token).1 = .playlistNotReady) ∧
    (∀ body, token ≠ "" → (validate_token store now token).1 = some (name, version) →
        lookupA playlists (name, version) = some body → body ≠ "" →
        (play_index store playlists now name version token).1 =
          .ok body "application/vnd.apple.mpegurl") := by
  refine ⟨?_, ?_, ?_, ?_, ?_⟩
  · intro h
    simp [play_index, h]
  · intro htok hval
    rcases heq : validate_token store now token with ⟨a, b⟩
    rw [heq] at hval
    simp only at hval
    subst hval
    simp [play_index, htok, heq]
  · intro vn vv htok hval hne
    rcases heq : validate_token store now token with ⟨a, b⟩
    rw [heq] at hval
    simp only at hval
    subst hval
    have hor : vn ≠ name ∨ vv ≠ version := by
      by_contra hc
      push_neg at hc
      exact hne (by simp [hc.1, hc.2])
    simp [play_index, htok, heq, hor]
  · intro htok hval hlk
    rcases heq : validate_token store now token with ⟨a, b⟩
    rw [heq] at hval
    simp only at hval
    subst hval
    rcases hlk with h | h <;> simp [play_index, htok, heq, h]
  · intro body htok hval hlk hbody
    rcases heq : validate_token store now token with ⟨a, b⟩
    rw [heq] at hval
    simp only at hval
    subst hval
    simp [play_index, htok, heq, hlk, hbody]

/-- Witness for C5: a valid matching token against a ready playlist
returns 200 with the cached text and the HLS media type. -/
theorem C5_gateway_order_witness :
    (play_index [("tok", TokenRec.mk "demo" "v1" 100)]
        [(("demo", "v1"), "#EXTM3U\n/seg/demo/v1/0")] 0 "demo" "v1" "tok").1 =
      PlayResponse.ok "#EXTM3U\n/seg/demo/v1/0" "application/vnd.apple.mpegurl" :=
  (C5_gateway_order [("tok", TokenRec.mk "demo" "v1" 100)]
      [(("demo", "v1"), "#EXTM3U\n/seg/demo/v1/0")] 0 "demo" "v1" "tok").2.2.2.2
    "#EXTM3U\n/seg/demo/v1/0" (by decide) (by decide) (by decide) (by decide)

/-! ## Claim C6 -/

/-- Claim C6 (confirmed): a segment request with an index outside the
current table's bounds answers `SegmentNotFound` and never contacts the
origin; an in-bounds index resolves to exactly the origin URL stored at
that index of the current table.  The route takes no token at all. -/
theorem C6_segment_bounds (segments : List ((String × String) × List String))
    (name version : String) (seg_id : Nat) :
    (((lookupA segments (name, version)).getD []).length ≤ seg_id →
        segment segments name version seg_id = .segmentNotFound ∧
        ∀ u, segment segments name version seg_id ≠ .upstreamGet u) ∧
    (∀ h : seg_id < ((lookupA segments (name, version)).getD []).length,
        segment segments name version seg_id =
          .upstreamGet (((lookupA segments (name, version)).getD []).get ⟨seg_id, h⟩)) := by
  constructor
  · intro hge
    have hnot : ¬ seg_id < ((lookupA segments (name, version)).getD []).length := by omega
    refine ⟨?_, ?_⟩
    · simp [segment, hnot]
    · intro u
      simp [segment, hnot]
  · intro h
    simp [segment, h]

/-- Witness for C6: the spec's scenario — index 5 against a 2-entry
table returns `SegmentNotFound`. -/
theorem C6_segment_bounds_witness :
    segment [(("demo", "v1"), ["http://o/l/s0.ts", "http://o/l/s1.ts"])] "demo" "v1" 5 =
      SegResponse.segmentNotFound :=
  ((C6_segment_bounds [(("demo", "v1"), ["http://o/l/s0.ts", "http://o/l/s1.ts"])]
      "demo" "v1" 5).1 (by decide)).1

/-! ## Claim C10 -/

/-- Claim C10 (confirmed): at the segment endpoint a channel with no
`latest_segments` entry is answered exactly like a channel whose entry
is the empty table — every index yields `SegmentNotFound` — so the
absent state is indistinguishable from an empty-but-present table for
segment requests. -/
theorem C10_absent_equals_empty (segments : List ((String × String) × List String))
    (name version : String) (seg_id : Nat)
    (h : lookupA segments (name, version) = none) :
    segment segments name version seg_id = .segmentNotFound ∧
    segment segments name version seg_id =
      segment (putA segments (name, version) []) name version seg_id := by
  have h1 : segment segments name version seg_id = .segmentNotFound := by
    simp [segment, h]
  have h2 : segment (putA segments (name, version) []) name version seg_id =
      SegResponse.segmentNotFound := by
    simp [segment, lookupA_putA_self]
  exact ⟨h1, h1.trans h2.symm⟩

/-- Witness for C10: a never-fetched channel (no entry at all) and the
same channel with an installed empty table give the same 404 at a
concrete index. -/
theorem C10_absent_equals_empty_witness :
    segment [] "demo" "v1" 7 = SegResponse.segmentNotFound ∧
    segment [] "demo" "v1" 7 = segment (putA [] ("demo", "v1") []) "demo" "v1" 7 :=
  C10_absent_equals_empty [] "demo" "v1" 7 (by decide)

/-! ## Claim C7 -/

/-- Claim C7 (confirmed): the rewrite is a deterministic function of
the origin playlist body and the channel's name, version and source
URL — a cycle installs exactly `rewritePlaylist name version source_url
body`, and a second successive cycle fed the identical body installs
the identical playlist text and the identical segment table (hence
identical index assignments). -/
theorem C7_rewrite_deterministic (name version source_url body : String)
    (now1 now2 : ℚ) (s : RelayState) :
    lookupA (update_worker_cycle name version source_url (.ok body) now1 s).latest_playlists
        (name, version) = some (rewritePlaylist name version source_url body).text ∧
    lookupA (update_worker_cycle name version source_url (.ok body) now1 s).latest_segments
        (name, version) = some (rewritePlaylist name version source_url body).table ∧
    lookupA (update_worker_cycle name version source_url (.ok body) now2
          (update_worker_cycle name version source_url (.ok body) now1 s)).latest_playlists
        (name, version) =
      lookupA (update_worker_cycle name version source_url (.ok body) now1 s).latest_playlists
        (name, version) ∧
    lookupA (update_worker_cycle name version source_url (.ok body) now2
          (update_worker_cycle name version source_url (.ok body) now1 s)).latest_segments
        (name, version) =
      lookupA (update_worker_cycle name version source_url (.ok body) now1 s).latest_segments
        (name, version) := by
  simp [update_worker_cycle, lookupA_putA_self]

/-! ## Claim C9 -/

/-- Claim C9 (confirmed): a cycle whose fetch fails (network failure or
non-2xx, i.e. the `except` arm) leaves both cache dictionaries exactly
as they were — for every channel, not only the failing one — and the
loop goes on to run the remaining cycles. -/
theorem C9_failure_frame (name version source_url msg : String) (now : ℚ)
    (s : RelayState) (rest : List (Except String String × ℚ)) :
    (update_worker_cycle name version source_url (.error msg) now s).latest_playlists =
      s.latest_playlists ∧
    (update_worker_cycle name version source_url (.error msg) now s).latest_segments =
      s.latest_segments ∧
    update_worker_run name version source_url ((.error msg, now) :: rest) s =
      update_worker_run name version source_url rest
        (update_worker_cycle name version source_url (.error msg) now s) :=
  ⟨rfl, rfl, rfl⟩

/-! ## Claim C2 -/

/-- Claim C2 as frozen is false on the code: the snapshot is installed
by two separate dictionary writes (segments at line 145, playlist text
at line 146), so after the first write of the second cycle — three
atomic writes into a two-cycle run — a reader observes the first
cycle's playlist text paired with the second cycle's segment table,
which is neither the initial state nor the complete snapshot of any
single cycle. -/
theorem C2_claim_counterexample :
    ¬ ClaimC2Holds "demo" "v1" "http://o/l/s.m3u8" ⟨none, none⟩
      ["a0.ts", "b0.ts\nb1.ts"] := by
  intro h
  have h3 := h 3
  revert h3
  decide

/-- Claim C2 (amended): each of the two dictionary writes is
individually atomic and the worker writes the segment table before the
playlist text, so a reader that falls between the two writes of cycle
`c + 1` observes cycle `c + 1`'s segment table paired with cycle `c`'s
playlist text; at every other point it observes the text and table of
one completed cycle together.  Precisely: after `k` atomic writes of a
run of successful cycles, the visible playlist text is that of the
first `k / 2` cycles' last text write and the visible table is that of
the first `(k + 1) / 2` cycles' last table write. -/
theorem C2_write_interleaving (name version source_url : String) (init : ChanCache)
    (bodies : List String) (k : Nat) (hk : k ≤ 2 * bodies.length) :
    observeAfter init (writesOf name version source_url bodies) k =
      ⟨textAfterCycles name version source_url init.playlist bodies (k / 2),
        segsAfterCycles name version source_url init.segments bodies ((k + 1) / 2)⟩ := by
  induction bodies generalizing init k with
  | nil =>
      have hk0 : k = 0 := by simpa using hk
      subst hk0
      simp [observeAfter, writesOf, textAfterCycles, segsAfterCycles]
  | cons b rest ih =>
      match k with
      | 0 =>
          simp [observeAfter, textAfterCycles, segsAfterCycles]
      | 1 =>
          simp [observeAfter, writesOf, cycleWrites, applyWrite,
            textAfterCycles, segsAfterCycles]
      | n + 2 =>
          have hn : n ≤ 2 * rest.length := by
            simp only [List.length_cons] at hk
            omega
          have hobs :
              observeAfter init (writesOf name version source_url (b :: rest)) (n + 2) =
                observeAfter
                  ⟨some (rewritePlaylist name version source_url b).text,
                    some (rewritePlaylist name version source_url b).table⟩
                  (writesOf name version source_url rest) n := by
            simp [observeAfter, writesOf, cycleWrites, applyWrite]
          rw [hobs, ih _ _ hn]
          have h2 : (n + 2) / 2 = n / 2 + 1 := by omega
          have h3 : (n + 2 + 1) / 2 = (n + 1) / 2 + 1 := by omega
          rw [h2, h3]
          simp [textAfterCycles, segsAfterCycles]

/-- Witness for C2: in a two-cycle run, after three atomic writes the
reader sees cycle 1's playlist text with cycle 2's segment table. -/
theorem C2_write_interleaving_witness :
    observeAfter ⟨none, none⟩
        (writesOf "demo" "v1" "http://o/l/s.m3u8" ["a0.ts", "b0.ts\nb1.ts"]) 3 =
      ⟨some "/seg/demo/v1/0", some ["http://o/l/b0.ts", "http://o/l/b1.ts"]⟩ :=
  (C2_write_interleaving "demo" "v1" "http://o/l/s.m3u8" ⟨none, none⟩
      ["a0.ts", "b0.ts\nb1.ts"] 3 (by decide)).trans (by decide)

/-! ## Claim C8 -/

theorem supInv_init : SupInv initSup := by
  refine ⟨?_, ?_, ?_⟩ <;> simp [initSup, SupInv]

theorem supInv_start (s : SupervisorState) (n v : String) (h : SupInv s) :
    SupInv (start_updater s n v) := by
  obtain ⟨hnd, hb, hc⟩ := h
  unfold start_updater
  cases hl : lookupA s.updater_threads (n, v) with
  | some tid => exact ⟨hnd, hb, hc⟩
  | none =>
      refine ⟨?_, ?_, ?_⟩
      · simp only [putA_eq_append _ hl, List.map_append, List.map_cons, List.map_nil]
        rw [List.nodup_append]
        refine ⟨hnd, List.nodup_singleton _, ?_⟩
        intro x hx hx1
        simp only [List.mem_singleton] at hx1
        subst hx1
        exact not_mem_keys_of_lookupA_none hl hx
      · intro p hp
        rw [putA_eq_append _ hl] at hp
        rcases List.mem_append.mp hp with h1 | h1
        · exact Nat.lt_succ_of_lt (hb p h1)
        · simp only [List.mem_singleton] at h1
          subst h1
          exact Nat.lt_succ_self _
      · intro c hcmem
        exact Nat.lt_succ_of_lt (hc c hcmem)

theorem supInv_stop (s : SupervisorState) (n v : String) (h : SupInv s) :
    SupInv (stop_updater s n v) := by
  obtain ⟨hnd, hb, hc⟩ := h
  unfold stop_updater
  cases hl : lookupA s.updater_threads (n, v) with
  | none => exact ⟨hnd, hb, hc⟩
  | some tid =>
      refine ⟨nodup_keys_eraseA _ hnd, ?_, ?_⟩
      · intro p hp
        exact hb p (mem_eraseA hp)
      · intro c hcmem
        rcases List.mem_cons.mp hcmem with h1 | h1
        · subst h1
          exact hb _ (lookupA_mem hl)
        · exact hc c h1

theorem supInv_runFrom (ops : List SupOp) (s : SupervisorState) (h : SupInv s) :
    SupInv (runSupFrom s ops) := by
  induction ops generalizing s with
  | nil => exact h
  | cons op rest ih =>
      cases op with
      | startOp n v => exact ih _ (supInv_start s n v h)
      | stopOp n v => exact ih _ (supInv_stop s n v h)

/-- Claim C8 (confirmed): for every channel identity, `start_updater`
is a no-op when a handle exists (two starts leave exactly the state of
one, with a handle present), `stop_updater` removes the handle and
signals its cancellation and is a no-op when no handle exists, a stop
followed by a start records a fresh handle distinct from the stopped
one and not cancelled, and after any sequence of start/stop operations
from process start the handle table holds at most one handle per
channel identity. -/
theorem C8_supervisor (name version : String) :
    (∀ s : SupervisorState,
        start_updater (start_updater s name version) name version =
          start_updater s name version ∧
        (lookupA (start_updater s name version).updater_threads
            (name, version)).isSome = true) ∧
    (∀ (s : SupervisorState) (tid : Nat),
        lookupA s.updater_threads (name, version) = some tid →
        lookupA (stop_updater s name version).updater_threads (name, version) = none ∧
        tid ∈ (stop_updater s name version).cancelled) ∧
    (∀ s : SupervisorState, lookupA s.updater_threads (name, version) = none →
        stop_updater s name version = s) ∧
    (∀ (ops : List SupOp) (tid : Nat),
        lookupA (runSupFrom initSup ops).updater_threads (name, version) = some tid →
        lookupA (start_updater (stop_updater (runSupFrom initSup ops) name version)
            name version).updater_threads (name, version) =
          some (runSupFrom initSup ops).next_thread ∧
        (runSupFrom initSup ops).next_thread ≠ tid ∧
        (runSupFrom initSup ops).next_thread ∉
          (start_updater (stop_updater (runSupFrom initSup ops) name version)
              name version).cancelled) ∧
    (∀ ops : List SupOp,
        ((runSupFrom initSup ops).updater_threads.map Prod.fst).Nodup) := by
  refine ⟨?_, ?_, ?_, ?_, ?_⟩
  · intro s
    cases hl : lookupA s.updater_threads (name, version) with
    | some tid =>
        constructor
        · simp [start_updater, hl]
        · simp [start_updater, hl]
    | none =>
        constructor
        · conv_lhs => rw [start_updater]
          simp [start_updater, hl, lookupA_putA_self]
        · simp [start_updater, hl, lookupA_putA_self]
  · intro s tid hl
    constructor
    · simp [stop_updater, hl, lookupA_eraseA_self]
    · simp [stop_updater, hl]
  · intro s hl
    simp [stop_updater, hl]
  · intro ops tid hl
    obtain ⟨hnd, hb, hc⟩ := supInv_runFrom ops initSup supInv_init
    have htid : tid < (runSupFrom initSup ops).next_thread := hb _ (lookupA_mem hl)
    have hstop : stop_updater (runSupFrom initSup ops) name version =
        ⟨eraseA (runSupFrom initSup ops).updater_threads (name, version),
          (runSupFrom initSup ops).next_thread,
          tid :: (runSupFrom initSup ops).cancelled⟩ := by
      simp [stop_updater, hl]
    rw [hstop]
    have hnone : lookupA
        (eraseA (runSupFrom initSup ops).updater_threads (name, version))
        (name, version) = none := lookupA_eraseA_self _ _
    refine ⟨?_, ?_, ?_⟩
    · simp [start_updater, hnone, lookupA_putA_self]
    · omega
    · simp only [start_updater, hnone]
      intro hmem
      rcases List.mem_cons.mp hmem with h1 | h1
      · omega
      · exact absurd (hc _ h1) (by omega)
  · intro ops
    exact (supInv_runFrom ops initSup supInv_init).1

/-- Witness for C8: starting channel `("demo", "v1")` from process
start, then stopping and starting it again, records the fresh handle 1,
distinct from the stopped handle 0 and not cancelled. -/
theorem C8_supervisor_witness :
    lookupA (start_updater (stop_updater
        (runSupFrom initSup [SupOp.startOp "demo" "v1"]) "demo" "v1") "demo"
        "v1").updater_threads ("demo", "v1") =
      some (runSupFrom initSup [SupOp.startOp "demo" "v1"]).next_thread ∧
    (runSupFrom initSup [SupOp.startOp "demo" "v1"]).next_thread ≠ 0 ∧
    (runSupFrom initSup [SupOp.startOp "demo" "v1"]).next_thread ∉
      (start_updater (stop_updater (runSupFrom initSup [SupOp.startOp "demo" "v1"])
          "demo" "v1") "demo" "v1").cancelled :=
  (C8_supervisor "demo" "v1").2.2.2.1 [SupOp.startOp "demo" "v1"] 0 (by decide)

end HLSRelay
